import Mathlib

/-!
Shallow embedding of `src/swap.py` (TextAssetSwap).

The script manages a PK3 (ZIP) archive: `backup_pk3` copies the archive to a
backup path and rewrites the archive with all entries under the configured
directory prefixes removed, adding a `.keep` placeholder per prefix;
`restore_pk3` puts the backup back in place of the archive.

Modelling choices:
* The filesystem is a partial map from path strings to file contents.
* A file's content is either a parsed ZIP archive (its ordered entry list,
  each entry a name plus uncompressed bytes) or raw non-ZIP bytes; opening a
  raw file with `zipfile.ZipFile(_, 'r')` raises `BadZipFile`.
* `locked` is a failure oracle for `os.remove`: removing a locked path raises
  `OSError` (e.g. the file is held open by another process).  All other
  primitives (`shutil.copyfile` to a distinct path, `zipfile` writes,
  `os.rename` of an existing source) succeed.
* Python's `ZipFile.read(name)` resolves a name through `NameToInfo`, which
  is built by iterating the central directory in order, so the LAST entry
  with a given name wins; `zipReadLast` models this.
* `os.path.join` is modelled with POSIX semantics (`posixJoin`); for the
  second argument `'.keep'` and a first argument ending in `/` the NT
  implementation agrees with it.
-/

structure Entry where
  name : String
  data : List Nat
deriving DecidableEq

inductive File where
  | zipf : List Entry → File
  | raw : List Nat → File
deriving DecidableEq

def FS : Type := String → Option File

def FS.ofList (l : List (String × File)) : FS :=
  fun p => (l.find? (fun x => x.1 == p)).map (fun x => x.2)

/-- Outcome of one operation.  `notFoundError`, `ioError` and `formatError`
are the reported (printed) error kinds of the spec; `ok` is normal
completion; `uncaught` marks an exception escaping the Python function. -/
inductive Outcome where
  | ok
  | notFoundError
  | ioError
  | formatError
  | uncaught
deriving DecidableEq

/-- Python `name.startswith(d)`. -/
def pyStartswith (s d : String) : Bool := d.data.isPrefixOf s.data

/-- The exclusion test of the rewrite loop: `item.filename` starts with one
of the `dirs_to_clear` strings. -/
def startsWithAny (dirs : List String) (n : String) : Bool :=
  dirs.any (fun d => pyStartswith n d)

/-- Python `s.endswith('/')`. -/
def endsWithSlash (s : String) : Bool := s.data.getLast? == some '/'

/-- Python `posixpath.join a b` for two arguments. -/
def posixJoin (a b : String) : String :=
  if b.data.head? == some '/' then b
  else if a == "" || endsWithSlash a then a ++ b
  else a ++ "/" ++ b

/-- Python `zip_read.read(n)`: the name is resolved via `NameToInfo`, in
which the last central-directory entry with a given name wins. -/
def zipReadLast (entries : List Entry) (n : String) : Option (List Nat) :=
  ((entries.filter (fun e => e.name == n)).getLast?).map Entry.data

/-- The rewrite loop of `backup_pk3` (lines 58-81): every entry whose name
does not start with one of `dirs_to_clear` is written to the temp archive
under its own name with the bytes of `zip_read.read(item.filename)`, then a
zero-byte `os.path.join(dir_path, '.keep')` placeholder is appended per
prefix in list order. -/
def rewriteEntries (dirs : List String) (entries : List Entry) : List Entry :=
  ((entries.filter (fun e => !(startsWithAny dirs e.name))).map
    (fun e => Entry.mk e.name ((zipReadLast entries e.name).getD [])))
  ++ dirs.map (fun d => Entry.mk (posixJoin d ".keep") [])

/-- `backup_pk3 pk3_file backup_file dirs_to_clear` over a filesystem and a
lock oracle.  Mirrors `src/swap.py` lines 30-100:
missing source → `notFoundError`; `copyfile` to the same path raises
`SameFileError` (an `IOError`) → `ioError` with nothing changed; a raw
(non-ZIP) source → `BadZipFile` handler, which removes the backup — if that
removal itself fails the exception is uncaught (the `os.remove` sits inside
the handler, outside any try); a valid source is rewritten to
`"temp_" ++ pk3_file`, after which `os.remove(pk3_file)` (failing when the
path is locked → `ioError`, temp and backup left behind) and
`os.rename(temp, pk3_file)` replace the original. -/
def backup_pk3 (fs : FS) (locked : String → Bool)
    (pk3_file backup_file : String) (dirs_to_clear : List String) :
    Outcome × FS :=
  match fs pk3_file with
  | none => (Outcome.notFoundError, fs)
  | some content =>
    if backup_file = pk3_file then (Outcome.ioError, fs)
    else
      match content with
      | File.raw _ =>
        if locked backup_file then
          (Outcome.uncaught, fun p => if p = backup_file then some content else fs p)
        else
          (Outcome.formatError, fun p => if p = backup_file then none else fs p)
      | File.zipf entries =>
        if locked pk3_file then
          (Outcome.ioError, fun p =>
            if p = "temp_" ++ pk3_file then
              some (File.zipf (rewriteEntries dirs_to_clear entries))
            else if p = backup_file then some content
            else fs p)
        else
          (Outcome.ok, fun p =>
            if p = pk3_file then
              some (File.zipf (rewriteEntries dirs_to_clear entries))
            else if p = "temp_" ++ pk3_file then none
            else if p = backup_file then some content
            else fs p)

/-- `restore_pk3 pk3_file backup_file`.  Mirrors `src/swap.py` lines
103-124: missing backup → `notFoundError`; an existing archive is removed
first (`ioError` when locked, nothing changed); removing the archive when
the two paths coincide leaves `os.rename` with a missing source, whose
`OSError` is caught → `ioError`; otherwise the backup is renamed onto the
archive path. -/
def restore_pk3 (fs : FS) (locked : String → Bool)
    (pk3_file backup_file : String) : Outcome × FS :=
  match fs backup_file with
  | none => (Outcome.notFoundError, fs)
  | some b =>
    match fs pk3_file with
    | some _ =>
      if locked pk3_file then (Outcome.ioError, fs)
      else if backup_file = pk3_file then
        (Outcome.ioError, fun p => if p = pk3_file then none else fs p)
      else
        (Outcome.ok, fun p =>
          if p = pk3_file then some b
          else if p = backup_file then none
          else fs p)
    | none =>
      (Outcome.ok, fun p =>
        if p = pk3_file then some b
        else if p = backup_file then none
        else fs p)

/-- Claim C5: Backup-and-Strip on a missing archive path reports
`NotFoundError` and returns the filesystem unchanged. -/
theorem backup_missing_archive (fs : FS) (locked : String → Bool)
    (pk3 bak : String) (dirs : List String) (h : fs pk3 = none) :
    backup_pk3 fs locked pk3 bak dirs = (Outcome.notFoundError, fs) := by
  unfold backup_pk3
  rw [h]

theorem backup_missing_archive_witness :
    backup_pk3 (FS.ofList []) (fun _ => false) "a.pk3" "a.pk3.bak"
        ["ext_data/mb2/character/"]
      = (Outcome.notFoundError, FS.ofList []) :=
  backup_missing_archive (FS.ofList []) (fun _ => false) "a.pk3" "a.pk3.bak"
    ["ext_data/mb2/character/"] (by decide)

/-- Claim C6: Restore with a missing backup path reports `NotFoundError`
and returns the filesystem unchanged. -/
theorem restore_missing_backup (fs : FS) (locked : String → Bool)
    (pk3 bak : String) (h : fs bak = none) :
    restore_pk3 fs locked pk3 bak = (Outcome.notFoundError, fs) := by
  unfold restore_pk3
  rw [h]

theorem restore_missing_backup_witness :
    restore_pk3 (FS.ofList [("a.pk3", File.raw [7])]) (fun _ => false)
        "a.pk3" "a.pk3.bak"
      = (Outcome.notFoundError, FS.ofList [("a.pk3", File.raw [7])]) :=
  restore_missing_backup (FS.ofList [("a.pk3", File.raw [7])])
    (fun _ => false) "a.pk3" "a.pk3.bak" (by decide)

/-- Claim C7: when the backup exists, the archive exists and deleting the
archive fails, Restore reports an `IOError` and leaves the filesystem
unchanged: the backup is untouched and the archive still present. -/
theorem restore_remove_locked (fs : FS) (locked : String → Bool)
    (pk3 bak : String) (a b : File)
    (hb : fs bak = some b) (hp : fs pk3 = some a) (hl : locked pk3 = true) :
    restore_pk3 fs locked pk3 bak = (Outcome.ioError, fs) := by
  unfold restore_pk3
  rw [hb, hp, hl]
  simp

theorem restore_remove_locked_witness :
    restore_pk3
        (FS.ofList [("a.pk3", File.raw [7]), ("a.pk3.bak", File.raw [9])])
        (fun p => p == "a.pk3") "a.pk3" "a.pk3.bak"
      = (Outcome.ioError,
         FS.ofList [("a.pk3", File.raw [7]), ("a.pk3.bak", File.raw [9])]) :=
  restore_remove_locked
    (FS.ofList [("a.pk3", File.raw [7]), ("a.pk3.bak", File.raw [9])])
    (fun p => p == "a.pk3") "a.pk3" "a.pk3.bak" (File.raw [7]) (File.raw [9])
    (by decide) (by decide) (by decide)

theorem pyStartswith_append (a b : String) : pyStartswith (a ++ b) a = true := by
  unfold pyStartswith
  rw [String.data_append]
  exact List.isPrefixOf_iff_prefix.mpr (List.prefix_append _ _)

theorem startsWith_posixJoin_keep (d : String) :
    pyStartswith (posixJoin d ".keep") d = true := by
  have h1 : ((".keep" : String).data.head? == some '/') = false := by decide
  unfold posixJoin
  rw [h1]
  simp only [Bool.false_eq_true, if_false]
  split
  · exact pyStartswith_append d ".keep"
  · rw [String.append_assoc]
    exact pyStartswith_append d ("/" ++ ".keep")

theorem posixJoin_keep_eq (d : String) (h : endsWithSlash d = true) :
    posixJoin d ".keep" = d ++ ".keep" := by
  have h1 : ((".keep" : String).data.head? == some '/') = false := by decide
  unfold posixJoin
  rw [h1, h]
  simp

theorem filter_name_singleton (es : List Entry) (e : Entry)
    (hn : (es.map Entry.name).Nodup) (he : e ∈ es) :
    es.filter (fun x => x.name == e.name) = [e] := by
  induction es with
  | nil => cases he
  | cons a t ih =>
    rw [List.map_cons, List.nodup_cons] at hn
    rcases List.mem_cons.mp he with h | h
    · subst h
      rw [List.filter_cons, if_pos (by simp)]
      have ht : t.filter (fun x => x.name == e.name) = [] := by
        rw [List.filter_eq_nil_iff]
        intro x hx hxe
        exact hn.1 ((beq_iff_eq.mp hxe) ▸ List.mem_map_of_mem Entry.name hx)
      rw [ht]
    · have hne : (a.name == e.name) = false := by
        rw [beq_eq_false_iff_ne]
        intro hc
        exact hn.1 (hc ▸ List.mem_map_of_mem Entry.name h)
      rw [List.filter_cons, if_neg (by simp [hne])]
      exact ih hn.2 h

theorem rewrite_names (dirs : List String) (es : List Entry) :
    (rewriteEntries dirs es).map Entry.name
      = (es.map Entry.name).filter (fun n => !(startsWithAny dirs n))
        ++ dirs.map (fun d => posixJoin d ".keep") := by
  unfold rewriteEntries
  rw [List.map_append, List.map_map, List.map_map, List.filter_map]
  rfl

/-- Claim C10: the rewrite of `backup_pk3` is idempotent on entry names:
each placeholder `os.path.join(d, '.keep')` itself starts with its prefix
`d`, so a second rewrite drops every placeholder and re-adds exactly one per
prefix, producing the same entry-name sequence as a single rewrite. -/
theorem rewrite_names_idempotent (dirs : List String) (es : List Entry) :
    (rewriteEntries dirs (rewriteEntries dirs es)).map Entry.name
      = (rewriteEntries dirs es).map Entry.name := by
  rw [rewrite_names, rewrite_names]
  congr 1
  rw [List.filter_append, List.filter_filter]
  have h1 : (dirs.map (fun d => posixJoin d ".keep")).filter
      (fun n => !(startsWithAny dirs n)) = [] := by
    rw [List.filter_eq_nil_iff]
    intro n hn hcon
    rcases List.mem_map.mp hn with ⟨d, hd, rfl⟩
    have hs : startsWithAny dirs (posixJoin d ".keep") = true := by
      unfold startsWithAny
      exact List.any_eq_true.mpr ⟨d, hd, startsWith_posixJoin_keep d⟩
    simp [hs] at hcon
  rw [h1, List.append_nil]
  simp [Bool.and_self]

/-- Claim C1 (amended): for a non-empty exclusion list whose prefixes each
end in `/` (as the configured ones do), the rewritten archive's entry names
are exactly the names of the source entries that start with no prefix,
followed by one placeholder `d ++ ".keep"` per prefix `d`.  (For a prefix
not ending in a path separator, `os.path.join` inserts a separator, so the
placeholder is named `d ++ "/.keep"` instead — see the counterexample.) -/
theorem rewrite_names_correct (dirs : List String) (es : List Entry)
    (_h0 : dirs ≠ []) (h : ∀ d ∈ dirs, endsWithSlash d = true) :
    (rewriteEntries dirs es).map Entry.name
      = (es.map Entry.name).filter (fun n => !(startsWithAny dirs n))
        ++ dirs.map (fun d => d ++ ".keep") := by
  rw [rewrite_names]
  congr 1
  exact List.map_congr_left (fun d hd => posixJoin_keep_eq d (h d hd))

theorem rewrite_names_correct_witness :
    (rewriteEntries ["ext_data/mb2/character/", "ext_data/mb2/teamconfig/"]
        [Entry.mk "a.txt" [1],
         Entry.mk "ext_data/mb2/character/foo.cfg" [2],
         Entry.mk "ext_data/mb2/teamconfig/bar.cfg" [3],
         Entry.mk "readme.md" [4]]).map Entry.name
      = ["a.txt", "readme.md",
         "ext_data/mb2/character/.keep", "ext_data/mb2/teamconfig/.keep"] :=
  (rewrite_names_correct
    ["ext_data/mb2/character/", "ext_data/mb2/teamconfig/"]
    [Entry.mk "a.txt" [1],
     Entry.mk "ext_data/mb2/character/foo.cfg" [2],
     Entry.mk "ext_data/mb2/teamconfig/bar.cfg" [3],
     Entry.mk "readme.md" [4]]
    (by decide) (by decide)).trans (by decide)

/-- Claim C1 as stated is false for a prefix that does not end in a path
separator: with `P = ["ext_data"]` the placeholder written by the code is
`os.path.join("ext_data", ".keep") = "ext_data/.keep"`, so the rewritten
archive does not contain the claimed name `"ext_data" ++ ".keep"`. -/
theorem rewrite_names_claim_cex :
    (rewriteEntries ["ext_data"] []).map Entry.name = ["ext_data/.keep"] ∧
    ¬ ("ext_data.keep" ∈ (rewriteEntries ["ext_data"] []).map Entry.name) := by
  decide

/-- Claim C3 (amended): when entry names are unique, every non-excluded
entry is copied in source order with name and bytes unchanged.  The copy
loop looks bytes up by name (`zip_read.read(item.filename)`), so with
duplicate names each copy receives the bytes of the LAST source entry with
that name — see the counterexample. -/
theorem rewrite_copies_entries (dirs : List String) (es : List Entry)
    (hn : (es.map Entry.name).Nodup) :
    rewriteEntries dirs es
      = es.filter (fun e => !(startsWithAny dirs e.name))
        ++ dirs.map (fun d => Entry.mk (posixJoin d ".keep") []) := by
  unfold rewriteEntries
  congr 1
  have h : ∀ e ∈ es.filter (fun e => !(startsWithAny dirs e.name)),
      Entry.mk e.name ((zipReadLast es e.name).getD []) = e := by
    intro e he
    have he' : e ∈ es := List.mem_of_mem_filter he
    have hz : zipReadLast es e.name = some e.data := by
      unfold zipReadLast
      rw [filter_name_singleton es e hn he']
      rfl
    rw [hz]
    rfl
  exact (List.map_congr_left h).trans (List.map_id' _)

theorem rewrite_copies_entries_witness :
    rewriteEntries ["d/"]
        [Entry.mk "a" [1], Entry.mk "d/x" [2], Entry.mk "b" [3]]
      = [Entry.mk "a" [1], Entry.mk "b" [3], Entry.mk "d/.keep" []] :=
  (rewrite_copies_entries ["d/"]
    [Entry.mk "a" [1], Entry.mk "d/x" [2], Entry.mk "b" [3]]
    (by decide)).trans (by decide)

/-- Claim C3 as stated is false for duplicate entry names: with two source
entries both named `"a"`, carrying bytes `[1]` and `[2]`, the rewrite emits
two entries named `"a"` that BOTH carry `[2]` (the bytes of the last
occurrence), not each its own bytes. -/
theorem rewrite_copies_entries_cex :
    rewriteEntries [] [Entry.mk "a" [1], Entry.mk "a" [2]]
      = [Entry.mk "a" [2], Entry.mk "a" [2]] ∧
    rewriteEntries [] [Entry.mk "a" [1], Entry.mk "a" [2]]
      ≠ [Entry.mk "a" [1], Entry.mk "a" [2]] := by
  decide

/-- Claim C4: when the source file exists but is not a valid ZIP archive
(and the backup path is distinct and deletable), `backup_pk3` reports
`FormatError`, deletes the backup it created moments earlier, and leaves
the original archive's bytes unchanged. -/
theorem backup_badzip_rollback (fs : FS) (locked : String → Bool)
    (pk3 bak : String) (dirs : List String) (bs : List Nat)
    (h1 : fs pk3 = some (File.raw bs)) (h2 : bak ≠ pk3)
    (h3 : locked bak = false) :
    (backup_pk3 fs locked pk3 bak dirs).1 = Outcome.formatError ∧
    (backup_pk3 fs locked pk3 bak dirs).2 bak = none ∧
    (backup_pk3 fs locked pk3 bak dirs).2 pk3 = fs pk3 := by
  have h2' : pk3 ≠ bak := Ne.symm h2
  unfold backup_pk3
  rw [h1]
  simp [h2, h2', h3, h1]

theorem backup_badzip_rollback_witness :
    (backup_pk3 (FS.ofList [("a.pk3", File.raw [80, 75])]) (fun _ => false)
        "a.pk3" "a.pk3.bak" ["ext_data/mb2/character/"]).1
      = Outcome.formatError ∧
    (backup_pk3 (FS.ofList [("a.pk3", File.raw [80, 75])]) (fun _ => false)
        "a.pk3" "a.pk3.bak" ["ext_data/mb2/character/"]).2 "a.pk3.bak"
      = none ∧
    (backup_pk3 (FS.ofList [("a.pk3", File.raw [80, 75])]) (fun _ => false)
        "a.pk3" "a.pk3.bak" ["ext_data/mb2/character/"]).2 "a.pk3"
      = FS.ofList [("a.pk3", File.raw [80, 75])] "a.pk3" :=
  backup_badzip_rollback (FS.ofList [("a.pk3", File.raw [80, 75])])
    (fun _ => false) "a.pk3" "a.pk3.bak" ["ext_data/mb2/character/"]
    [80, 75] (by decide) (by decide) (by decide)

/-- Claim C8: after every successful Restore the backup file no longer
exists at its path — it was consumed by the rename onto the archive path. -/
theorem restore_consumes_backup (fs : FS) (locked : String → Bool)
    (pk3 bak : String)
    (h : (restore_pk3 fs locked pk3 bak).1 = Outcome.ok) :
    (restore_pk3 fs locked pk3 bak).2 bak = none := by
  unfold restore_pk3 at h ⊢
  cases hb : fs bak with
  | none => simp [hb] at h
  | some b =>
    simp only [hb] at h ⊢
    cases hp : fs pk3 with
    | none =>
      simp only [hp] at h ⊢
      have he : ¬(bak = pk3) := fun hc => by rw [hc, hp] at hb; cases hb
      simp [he]
    | some a =>
      simp only [hp] at h ⊢
      cases hl : locked pk3 with
      | true => simp [hl] at h
      | false =>
        simp only [hl] at h ⊢
        by_cases he : bak = pk3
        · simp [he] at h
        · simp [he]

theorem restore_consumes_backup_witness :
    (restore_pk3
        (FS.ofList [("a.pk3", File.raw [7]), ("a.pk3.bak", File.raw [9])])
        (fun _ => false) "a.pk3" "a.pk3.bak").2 "a.pk3.bak" = none :=
  restore_consumes_backup
    (FS.ofList [("a.pk3", File.raw [7]), ("a.pk3.bak", File.raw [9])])
    (fun _ => false) "a.pk3" "a.pk3.bak" (by decide)

/-- Claim C9 (amended): Restore never terminates with an uncaught
exception, and Backup-and-Strip catches every modelled exception EXCEPT a
failure of the rollback `os.remove(backup_file)` inside its exception
handlers, which sits outside any `try` and propagates uncaught.  Whenever
the backup path is deletable, no uncaught exception occurs. -/
theorem no_uncaught_except_rollback (fs : FS) (locked : String → Bool)
    (pk3 bak : String) (dirs : List String) (h : locked bak = false) :
    (backup_pk3 fs locked pk3 bak dirs).1 ≠ Outcome.uncaught ∧
    (restore_pk3 fs locked pk3 bak).1 ≠ Outcome.uncaught := by
  constructor
  · unfold backup_pk3
    cases hp : fs pk3 with
    | none => simp
    | some c =>
      by_cases hbp : bak = pk3
      · simp [hbp]
      · cases c with
        | raw bs => simp [hbp, h]
        | zipf es =>
          cases hl : locked pk3 with
          | true => simp [hbp, hl]
          | false => simp [hbp, hl]
  · unfold restore_pk3
    cases hb : fs bak with
    | none => simp
    | some b =>
      cases hp : fs pk3 with
      | none => simp
      | some a =>
        cases hl : locked pk3 with
        | true => simp [hl]
        | false => by_cases he : bak = pk3 <;> simp [hl, he]

theorem no_uncaught_except_rollback_witness :
    (backup_pk3 (FS.ofList [("a.pk3", File.raw [0])]) (fun _ => false)
        "a.pk3" "a.pk3.bak" ["ext_data/mb2/character/"]).1
      ≠ Outcome.uncaught ∧
    (restore_pk3 (FS.ofList [("a.pk3", File.raw [0])]) (fun _ => false)
        "a.pk3" "a.pk3.bak").1 ≠ Outcome.uncaught :=
  no_uncaught_except_rollback (FS.ofList [("a.pk3", File.raw [0])])
    (fun _ => false) "a.pk3" "a.pk3.bak" ["ext_data/mb2/character/"]
    (by decide)

/-- Claim C9 as stated is false: with a non-ZIP source and a backup path
that cannot be deleted at rollback time (e.g. the freshly written backup
has been opened by another process), the `os.remove(backup_file)` inside
the `BadZipFile` handler raises and the exception escapes `backup_pk3`
uncaught. -/
theorem backup_rollback_uncaught_cex :
    (backup_pk3 (FS.ofList [("a.pk3", File.raw [0])])
        (fun p => p == "a.pk3.bak") "a.pk3" "a.pk3.bak"
        ["ext_data/mb2/character/"]).1 = Outcome.uncaught := by
  decide

theorem temp_ne (s : String) : ("temp_" ++ s) ≠ s := by
  intro h
  have h2 := congrArg String.data h
  rw [String.data_append] at h2
  have h3 := congrArg List.length h2
  rw [List.length_append] at h3
  have h4 : ("temp_" : String).data.length = 5 := by decide
  omega

theorem backup_ok_inv (fs : FS) (locked : String → Bool)
    (pk3 bak : String) (dirs : List String)
    (h : (backup_pk3 fs locked pk3 bak dirs).1 = Outcome.ok) :
    ∃ es, fs pk3 = some (File.zipf es) ∧ bak ≠ pk3 ∧ locked pk3 = false := by
  unfold backup_pk3 at h
  cases hp : fs pk3 with
  | none => simp [hp] at h
  | some c =>
    simp only [hp] at h
    by_cases hbp : bak = pk3
    · simp [hbp] at h
    · cases c with
      | raw bs => cases hl : locked bak <;> simp [hbp, hl] at h
      | zipf es =>
        cases hl : locked pk3 with
        | true => simp [hbp, hl] at h
        | false => exact ⟨es, rfl, hbp, rfl⟩

theorem backup_ok_eq (fs : FS) (locked : String → Bool)
    (pk3 bak : String) (dirs : List String) (es : List Entry)
    (hp : fs pk3 = some (File.zipf es)) (hbp : bak ≠ pk3)
    (hl : locked pk3 = false) :
    backup_pk3 fs locked pk3 bak dirs
      = (Outcome.ok, fun p =>
          if p = pk3 then some (File.zipf (rewriteEntries dirs es))
          else if p = "temp_" ++ pk3 then none
          else if p = bak then some (File.zipf es)
          else fs p) := by
  unfold backup_pk3
  rw [hp]
  simp [hbp, hl]

/-- Claim C2: Backup-and-Strip followed by Restore with the same archive
and backup paths, both succeeding, leaves at the archive path a file whose
content equals the original archive. -/
theorem backup_restore_roundtrip (fs : FS) (locked : String → Bool)
    (pk3 bak : String) (dirs : List String)
    (h1 : (backup_pk3 fs locked pk3 bak dirs).1 = Outcome.ok)
    (h2 : (restore_pk3 (backup_pk3 fs locked pk3 bak dirs).2
             locked pk3 bak).1 = Outcome.ok) :
    (restore_pk3 (backup_pk3 fs locked pk3 bak dirs).2 locked pk3 bak).2 pk3
      = fs pk3 := by
  obtain ⟨es, hp, hbp, hl⟩ := backup_ok_inv fs locked pk3 bak dirs h1
  rw [backup_ok_eq fs locked pk3 bak dirs es hp hbp hl] at h2 ⊢
  by_cases hbt : bak = "temp_" ++ pk3
  · simp [restore_pk3, hbt, temp_ne pk3] at h2
  · simp [restore_pk3, hbp, hbt, hl, hp]

theorem backup_restore_roundtrip_witness :
    (restore_pk3
        (backup_pk3
          (FS.ofList
            [("a.pk3", File.zipf [Entry.mk "x" [1], Entry.mk "d/y" [2]])])
          (fun _ => false) "a.pk3" "a.pk3.bak" ["d/"]).2
        (fun _ => false) "a.pk3" "a.pk3.bak").2 "a.pk3"
      = FS.ofList
          [("a.pk3", File.zipf [Entry.mk "x" [1], Entry.mk "d/y" [2]])]
          "a.pk3" :=
  backup_restore_roundtrip
    (FS.ofList [("a.pk3", File.zipf [Entry.mk "x" [1], Entry.mk "d/y" [2]])])
    (fun _ => false) "a.pk3" "a.pk3.bak" ["d/"] (by decide) (by decide)
